import Mathlib

/-!
Shallow embedding of the ForwardBotTG configuration store, conflict checker,
workflow state machine and dispatcher (src/database.py, src/handlers.py).

The SQLite tables are embedded as lists of rows; each database function is a
Lean function on a `Store`.  A `sqlite3.IntegrityError` followed by
`conn.rollback()` and `raise ValueError(...)` is embedded as `Except.error`:
the rolled-back transaction produces no new store, so the error carries no
state.  Python dicts are embedded as association lists respecting insertion
order.  Telegram chat ids and user ids are `Int` (group ids are negative in
practice).
-/

namespace ForwardBot

/-- A row of the `users_config` table (src/database.py lines 30-37):
`user_id INTEGER PRIMARY KEY, base_group_id INTEGER UNIQUE,
base_group_name TEXT, user_state TEXT`.  Nullable columns are `Option`. -/
structure UserRow where
  user_id : Int
  base_group_id : Option Int
  base_group_name : Option String
  user_state : Option String
deriving DecidableEq

/-- A row of the `destination_groups` table (src/database.py lines 39-48):
`user_id INTEGER NOT NULL, dest_group_id INTEGER NOT NULL,
dest_group_name TEXT, UNIQUE (user_id, dest_group_id)`.
The surrogate `id` column is irrelevant to behaviour and omitted. -/
structure DestRow where
  user_id : Int
  dest_group_id : Int
  dest_group_name : String
deriving DecidableEq

/-- The persistent store: the two tables behaviour depends on. -/
structure Store where
  users_config : List UserRow
  destination_groups : List DestRow
deriving DecidableEq

/-- Error taxonomy raised by the store layer as `ValueError`:
`Conflict` from `set_base_group`, `Duplicate` from `add_destination_group`. -/
inductive DbError where
  | Conflict
  | Duplicate
deriving DecidableEq

/-- `INSERT OR IGNORE INTO users_config (user_id) VALUES (?)`: inserts a row
with NULL base/name/state unless a row with this `user_id` already exists. -/
def ensureUser (s : Store) (uid : Int) : Store :=
  if s.users_config.any (fun r => r.user_id == uid) then s
  else { s with users_config := s.users_config ++ [⟨uid, none, none, none⟩] }

/-- The row effect of `UPDATE users_config SET user_state = ? WHERE
user_id = ?`. -/
def setStateRow (uid : Int) (st : Option String) (r : UserRow) : UserRow :=
  if r.user_id == uid then { r with user_state := st } else r

/-- `set_user_state` (src/database.py lines 72-78):
`INSERT OR IGNORE INTO users_config (user_id, user_state) VALUES (?, ?)`
followed by `UPDATE users_config SET user_state = ? WHERE user_id = ?`. -/
def set_user_state (s : Store) (uid : Int) (st : Option String) : Store :=
  let s1 :=
    if s.users_config.any (fun r => r.user_id == uid) then s
    else { s with users_config := s.users_config ++ [⟨uid, none, none, st⟩] }
  { s1 with users_config := s1.users_config.map (setStateRow uid st) }

/-- `get_user_state` (src/database.py lines 80-86):
`SELECT user_state FROM users_config WHERE user_id = ?`, returning
`result['user_state'] if result else None` — `none` both when no row exists
and when the row's `user_state` column is NULL. -/
def get_user_state (s : Store) (uid : Int) : Option String :=
  match s.users_config.find? (fun r => r.user_id == uid) with
  | none => none
  | some r => r.user_state

/-- The condition under which the `UPDATE` in `set_base_group` violates the
`base_group_id UNIQUE` constraint: some other user's row already stores this
`base_group_id`. -/
def conflictingBase (s : Store) (uid gid : Int) : Bool :=
  s.users_config.any (fun r => r.user_id != uid && r.base_group_id == some gid)

/-- The row effect of the `UPDATE` in `set_base_group`. -/
def setBaseRow (uid gid : Int) (gname : String) (r : UserRow) : UserRow :=
  if r.user_id == uid then
    { r with base_group_id := some gid, base_group_name := some gname,
             user_state := some "idle" }
  else r

/-- `set_base_group` (src/database.py lines 88-109): `INSERT OR IGNORE` of the
user row, then `UPDATE users_config SET base_group_id = ?,
base_group_name = ?, user_state = 'idle' WHERE user_id = ?`.  On
`IntegrityError` (another user already stores this base) the transaction is
rolled back and `ValueError` is raised: embedded as `Except.error .Conflict`
with no new store. -/
def set_base_group (s : Store) (uid gid : Int) (gname : String) :
    Except DbError Store :=
  if conflictingBase s uid gid then .error .Conflict
  else
    let s1 := ensureUser s uid
    .ok { s1 with users_config := s1.users_config.map (setBaseRow uid gid gname) }

/-- `get_base_group` (src/database.py lines 111-117): returns
`(result['base_group_id'], result['base_group_name'])` only when the row
exists **and** `result['base_group_id']` is truthy — a stored base of NULL or
`0` both read back as `None`. -/
def get_base_group (s : Store) (uid : Int) : Option (Int × Option String) :=
  match s.users_config.find? (fun r => r.user_id == uid) with
  | none => none
  | some r =>
    match r.base_group_id with
    | none => none
    | some b => if b == 0 then none else some (b, r.base_group_name)

/-- The row effect of the `UPDATE` in `clear_base_group`. -/
def clearBaseRow (uid : Int) (r : UserRow) : UserRow :=
  if r.user_id == uid then
    { r with base_group_id := none, base_group_name := none }
  else r

/-- `clear_base_group` (src/database.py lines 119-125):
`UPDATE users_config SET base_group_id = NULL, base_group_name = NULL
WHERE user_id = ?` — a plain UPDATE with no failure path. -/
def clear_base_group (s : Store) (uid : Int) : Store :=
  { s with users_config := s.users_config.map (clearBaseRow uid) }

/-- `add_destination_group` (src/database.py lines 127-146): `INSERT OR
IGNORE` of the user row, then `INSERT INTO destination_groups`; the
`UNIQUE (user_id, dest_group_id)` constraint turns a repeated pair into
`IntegrityError` → rollback → `ValueError`, embedded as `.error .Duplicate`.
On success the code commits and then calls `set_user_state(user_id, 'idle')`. -/
def add_destination_group (s : Store) (uid gid : Int) (gname : String) :
    Except DbError Store :=
  if s.destination_groups.any
      (fun d => d.user_id == uid && d.dest_group_id == gid) then
    .error .Duplicate
  else
    let s1 := ensureUser s uid
    let s2 := { s1 with
      destination_groups := s1.destination_groups ++ [⟨uid, gid, gname⟩] }
    .ok (set_user_state s2 uid (some "idle"))

/-- `remove_destination_group` (src/database.py lines 148-158): DELETE of the
matching rows; returns `True` iff `cursor.rowcount > 0`, i.e. a row was
actually deleted. -/
def remove_destination_group (s : Store) (uid gid : Int) : Store × Bool :=
  let remaining := s.destination_groups.filter
    (fun d => !(d.user_id == uid && d.dest_group_id == gid))
  ({ s with destination_groups := remaining },
   remaining.length < s.destination_groups.length)

/-- `get_destination_groups` (src/database.py lines 160-165). -/
def get_destination_groups (s : Store) (uid : Int) : List (Int × String) :=
  (s.destination_groups.filter (fun d => d.user_id == uid)).map
    (fun d => (d.dest_group_id, d.dest_group_name))

/-- `check_destination_conflict` (src/database.py lines 198-222): collect the
users whose stored `base_group_id` equals the base under test, return `false`
if there are none, otherwise test whether any destination row belongs to one
of those users and targets the destination under test. -/
def check_destination_conflict (s : Store) (b d : Int) : Bool :=
  let users := (s.users_config.filter
    (fun r => r.base_group_id == some b)).map (fun r => r.user_id)
  if users.isEmpty then false
  else s.destination_groups.any
    (fun row => users.contains row.user_id && row.dest_group_id == d)

/-- `if dest_id not in configs[base_group_id]: configs[...].append(dest_id)`
(src/database.py lines 191-193). -/
def addUnique (l : List Int) (x : Int) : List Int :=
  if l.contains x then l else l ++ [x]

/-- The body of the per-user loop in `get_all_forwarding_configs`
(src/database.py lines 180-193): skip users whose `base_group_id` is NULL
(they are not selected) — handled by the caller's SQL filter — and users with
no destination rows; otherwise merge the user's destination ids into the dict
entry for their base, deduplicating. -/
def routeStep (s : Store) (configs : List (Int × List Int)) (r : UserRow) :
    List (Int × List Int) :=
  match r.base_group_id with
  | none => configs
  | some b =>
    let dests := (s.destination_groups.filter
      (fun d => d.user_id == r.user_id)).map (fun d => d.dest_group_id)
    if dests.isEmpty then configs
    else
      let cur := match configs.find? (fun p => p.1 == b) with
        | none => []
        | some p => p.2
      let merged := dests.foldl addUnique cur
      if configs.any (fun p => p.1 == b) then
        configs.map (fun p => if p.1 == b then (p.1, merged) else p)
      else configs ++ [(b, merged)]

/-- `get_all_forwarding_configs` (src/database.py lines 167-195): the dict
`base_group_id → [dest_group_id...]`, embedded as an insertion-ordered
association list, folded over the users selected by
`WHERE base_group_id IS NOT NULL`. -/
def get_all_forwarding_configs (s : Store) : List (Int × List Int) :=
  s.users_config.foldl (routeStep s) []

/-! ## Handler layer (src/handlers.py)

The handlers are `async` Python driven by Telegram updates; the embedding
keeps only their effect on the store.  Messages sent back to the user,
membership probes and the known-chat cache have no effect on the store and
are dropped.  The claims concern the moment a concrete chat `(gid, gname)`
has been resolved for an authenticated user. -/

/-- The chat-identified part of `handle_forwarded_message` (src/handlers.py
lines 588-660), after a group/channel origin has been resolved: dispatch on
`db.get_user_state(user_id)`.  In `'awaiting_base_forward'`,
`db.set_base_group` inside `try`, with `finally: db.set_user_state(user_id,
'idle')` on every path.  In `'awaiting_dest_forward'`, the guards (no base,
destination equals own base, cross-tenant edge conflict) each reset the state
to idle and return; otherwise `db.add_destination_group` inside `try` with
the same `finally`.  Any other state leaves the store untouched. -/
def handle_forwarded_message_identified (s : Store) (uid gid : Int)
    (gname : String) : Store :=
  let st := get_user_state s uid
  if st == some "awaiting_base_forward" then
    match set_base_group s uid gid gname with
    | .ok s1 => set_user_state s1 uid (some "idle")
    | .error _ => set_user_state s uid (some "idle")
  else if st == some "awaiting_dest_forward" then
    match get_base_group s uid with
    | none => set_user_state s uid (some "idle")
    | some (bId, _) =>
      if gid == bId then set_user_state s uid (some "idle")
      else if check_destination_conflict s bId gid then
        set_user_state s uid (some "idle")
      else
        match add_destination_group s uid gid gname with
        | .ok s1 => set_user_state s1 uid (some "idle")
        | .error _ => set_user_state s uid (some "idle")
  else s

/-- The `sel_base_select_<id>` branch of `button_callback_handler`
(src/handlers.py lines 240-289): `db.set_base_group` then
`db.set_user_state(user_id, 'idle')`; each `except` arm also ends with
`db.set_user_state(user_id, 'idle')`. -/
def button_select_base (s : Store) (uid gid : Int) (gname : String) : Store :=
  match set_base_group s uid gid gname with
  | .ok s1 => set_user_state s1 uid (some "idle")
  | .error _ => set_user_state s uid (some "idle")

/-- The `sel_dest_select_<id>` branch of `button_callback_handler`
(src/handlers.py lines 342-414).  With no base configured the handler resets
to idle and returns.  When the candidate equals the user's base, or
`db.check_destination_conflict` reports a cross-tenant edge conflict, the
handler returns **without touching the state** (`return # Keep state, let
user choose again`).  Otherwise `db.add_destination_group` then idle; the
`except` arms also set idle. -/
def button_select_dest (s : Store) (uid gid : Int) (gname : String) : Store :=
  match get_base_group s uid with
  | none => set_user_state s uid (some "idle")
  | some (bId, _) =>
    if gid == bId then s
    else if check_destination_conflict s bId gid then s
    else
      match add_destination_group s uid gid gname with
      | .ok s1 => set_user_state s1 uid (some "idle")
      | .error _ => set_user_state s uid (some "idle")

/-! ## Dispatcher (src/handlers.py, `handle_group_message`) -/

/-- `SELECT user_id FROM users_config WHERE base_group_id = ?` followed by
`fetchone()` (src/handlers.py lines 696-699). -/
def ownerOfBase (s : Store) (b : Int) : Option Int :=
  (s.users_config.find? (fun r => r.base_group_id == some b)).map
    (fun r => r.user_id)

/-- Outcome of the fan-out loop: the number of successful relays
(`forwarded_count`) together with the list of destinations on which a relay
was actually attempted, in loop order. -/
structure FanoutResult where
  forwarded_count : Nat
  attempted : List Int
deriving DecidableEq

/-- One iteration of the `for dest_id in destinations` loop (src/handlers.py
lines 692-717).  `auth` embeds `db.is_user_authenticated`.  Modelled from the
spec: `is_user_authenticated` is called by the handlers but not defined under
src/; the spec's session gate `isAuthenticated(user) → bool` is taken as an
oracle predicate.  If the owner of the base exists and is not authenticated
the loop `continue`s without attempting a relay; otherwise
`context.bot.forward_message` is attempted — its outcome is the oracle
`relayOk` — and on success `forwarded_count` is incremented; on exception
the loop logs and moves on to the next destination. -/
def dispatchStep (auth : Int → Bool) (relayOk : Int → Bool) (s : Store)
    (origin : Int) (acc : FanoutResult) (dest : Int) : FanoutResult :=
  match ownerOfBase s origin with
  | some uid =>
    if auth uid then
      { forwarded_count :=
          if relayOk dest then acc.forwarded_count + 1 else acc.forwarded_count,
        attempted := acc.attempted ++ [dest] }
    else acc
  | none =>
    { forwarded_count :=
        if relayOk dest then acc.forwarded_count + 1 else acc.forwarded_count,
      attempted := acc.attempted ++ [dest] }

/-- `handle_group_message` (src/handlers.py lines 663-720), effect relevant
to routing: look the origin chat up in `db.get_all_forwarding_configs()`;
absent or empty destination list means no relay attempt at all; otherwise run
the fan-out loop over the destinations. -/
def handle_group_message (auth : Int → Bool) (relayOk : Int → Bool)
    (s : Store) (origin : Int) : FanoutResult :=
  match (get_all_forwarding_configs s).find? (fun p => p.1 == origin) with
  | none => ⟨0, []⟩
  | some p =>
    if p.2.isEmpty then ⟨0, []⟩
    else p.2.foldl (dispatchStep auth relayOk s origin) ⟨0, []⟩

/-- The dest ≠ own base invariant of the spec (§3): no user's stored base
group id equals one of that same user's destination group ids. -/
def destBaseInv (s : Store) : Prop :=
  ∀ r ∈ s.users_config, ∀ d ∈ s.destination_groups,
    d.user_id = r.user_id → r.base_group_id ≠ some d.dest_group_id

instance (s : Store) : Decidable (destBaseInv s) := by
  unfold destBaseInv; infer_instance

/-- The raw stored base of a user's row, read without the truthiness filter
of `get_base_group` (SQL `SELECT base_group_id ... WHERE user_id = ?`). -/
def storedBase (s : Store) (uid : Int) : Option Int :=
  match s.users_config.find? (fun r => r.user_id == uid) with
  | none => none
  | some r => r.base_group_id

/-! ## Basic lemmas about the store operations -/

lemma setStateRow_user_id (uid : Int) (st : Option String) (r : UserRow) :
    (setStateRow uid st r).user_id = r.user_id := by
  unfold setStateRow; by_cases h : r.user_id == uid <;> simp [h]

lemma setBaseRow_user_id (uid gid : Int) (gname : String) (r : UserRow) :
    (setBaseRow uid gid gname r).user_id = r.user_id := by
  unfold setBaseRow; by_cases h : r.user_id == uid <;> simp [h]

lemma clearBaseRow_user_id (uid : Int) (r : UserRow) :
    (clearBaseRow uid r).user_id = r.user_id := by
  unfold clearBaseRow; by_cases h : r.user_id == uid <;> simp [h]

lemma ensureUser_dests (s : Store) (u : Int) :
    (ensureUser s u).destination_groups = s.destination_groups := by
  unfold ensureUser
  by_cases h : s.users_config.any (fun r => r.user_id == u) <;> simp [h]

lemma set_user_state_dests (s : Store) (u : Int) (st : Option String) :
    (set_user_state s u st).destination_groups = s.destination_groups := by
  unfold set_user_state
  by_cases h : s.users_config.any (fun r => r.user_id == u) <;> simp [h]

lemma ensureUser_any (s : Store) (u : Int) :
    (ensureUser s u).users_config.any (fun r => r.user_id == u) = true := by
  unfold ensureUser
  by_cases h : s.users_config.any (fun r => r.user_id == u) <;>
    simp [h, List.any_append]

lemma get_user_state_map_setState (l : List UserRow) (ds : List DestRow)
    (u : Int) (st : Option String)
    (h : l.any (fun r => r.user_id == u) = true) :
    get_user_state ⟨l.map (setStateRow u st), ds⟩ u = st := by
  induction l with
  | nil => simp at h
  | cons a l ih =>
    by_cases ha : a.user_id == u
    · have ha' : a.user_id = u := by simpa using ha
      simp [get_user_state, setStateRow, List.find?_cons, ha']
    · have h' : l.any (fun r => r.user_id == u) = true := by
        simp only [List.any_cons, ha, Bool.false_or] at h; exact h
      have hrec := ih h'
      unfold get_user_state setStateRow at hrec ⊢
      simp only [List.map_cons, List.find?_cons, ha, if_neg] at hrec ⊢
      simpa [ha] using hrec

/-- `set_user_state` followed by `get_user_state` for the same user reads
back the state just written. -/
lemma get_set_state (s : Store) (u : Int) (st : Option String) :
    get_user_state (set_user_state s u st) u = st := by
  unfold set_user_state
  by_cases h : s.users_config.any (fun r => r.user_id == u)
  · simp only [if_pos h]
    exact get_user_state_map_setState _ _ _ _ h
  · simp only [if_neg h]
    apply get_user_state_map_setState
    simp [List.any_append]

/-! ## C7: clear_base_group is idempotent -/

/-- C7: `clearBaseGroup` never errors (it is embedded as a total function:
the source is a single unconditional UPDATE with no failure branch), and
calling it twice in a row leaves the store exactly as one call does. -/
theorem clear_base_group_idem (s : Store) (u : Int) :
    clear_base_group (clear_base_group s u) u = clear_base_group s u := by
  unfold clear_base_group
  simp only [List.map_map]
  refine congrArg (fun l => Store.mk l s.destination_groups) ?_
  apply List.map_congr_left
  intro r _
  by_cases h : r.user_id == u <;> simp [clearBaseRow, h, Function.comp]

/-! ## C8: workflow state of a never-seen user -/

/-- C8: a user with no row in `users_config` reads back workflow state
`none`, the unset sentinel, which differs from `some "idle"`, the state a
user at rest holds — so the two are distinguishable at the read interface. -/
theorem get_user_state_unseen (s : Store) (u : Int)
    (h : ∀ r ∈ s.users_config, r.user_id ≠ u) :
    get_user_state s u = none ∧ get_user_state s u ≠ some "idle" := by
  have hf : s.users_config.find? (fun r => r.user_id == u) = none := by
    rw [List.find?_eq_none]
    intro r hr
    simp [h r hr]
  unfold get_user_state
  rw [hf]
  exact ⟨rfl, by simp⟩

/-- Witness for C8 at a concrete store: user 7 has no row in a store holding
only user 1's row. -/
theorem get_user_state_unseen_witness :
    get_user_state ⟨[⟨1, some 100, some "b", some "idle"⟩], []⟩ 7 = none ∧
    get_user_state ⟨[⟨1, some 100, some "b", some "idle"⟩], []⟩ 7 ≠
      some "idle" :=
  get_user_state_unseen ⟨[⟨1, some 100, some "b", some "idle"⟩], []⟩ 7
    (by decide)

/-! ## C9: a stored base of 0 reads back as none -/

/-- C9: when the stored `base_group_id` of a user's row is `0`,
`get_base_group` returns `none` — Python's truthiness test
`if result and result['base_group_id']` hides a zero base id, so at the read
interface it is indistinguishable from no base at all. -/
theorem get_base_group_zero (s : Store) (u : Int)
    (h : storedBase s u = some 0) :
    get_base_group s u = none := by
  unfold storedBase at h
  unfold get_base_group
  cases hf : s.users_config.find? (fun r => r.user_id == u) with
  | none => simp [hf] at h
  | some r =>
    rw [hf] at h
    have h' : r.base_group_id = some 0 := h
    simp [h']

/-! ## C5: adding the same destination twice -/

/-- C5: from a store without the pair `(uid, gid)`, `add_destination_group`
succeeds once, fails with `Duplicate` when repeated, and the store after the
first call holds exactly one destination row for the pair. -/
theorem add_destination_twice (s : Store) (uid gid : Int) (n1 n2 : String)
    (h : s.destination_groups.any
      (fun d => d.user_id == uid && d.dest_group_id == gid) = false) :
    ∃ s1, add_destination_group s uid gid n1 = .ok s1 ∧
      add_destination_group s1 uid gid n2 = .error .Duplicate ∧
      (s1.destination_groups.filter
        (fun d => d.user_id == uid && d.dest_group_id == gid)).length = 1 := by
  refine ⟨set_user_state
      { ensureUser s uid with destination_groups :=
          (ensureUser s uid).destination_groups ++ [⟨uid, gid, n1⟩] }
      uid (some "idle"), ?_, ?_, ?_⟩
  · unfold add_destination_group
    rw [h]
    simp
  · have hd : (set_user_state
        { ensureUser s uid with destination_groups :=
            (ensureUser s uid).destination_groups ++ [⟨uid, gid, n1⟩] }
        uid (some "idle")).destination_groups =
          s.destination_groups ++ [⟨uid, gid, n1⟩] := by
      rw [set_user_state_dests]
      simp [ensureUser_dests]
    unfold add_destination_group
    rw [hd]
    simp [List.any_append]
  · have hd : (set_user_state
        { ensureUser s uid with destination_groups :=
            (ensureUser s uid).destination_groups ++ [⟨uid, gid, n1⟩] }
        uid (some "idle")).destination_groups =
          s.destination_groups ++ [⟨uid, gid, n1⟩] := by
      rw [set_user_state_dests]
      simp [ensureUser_dests]
    rw [hd, List.filter_append]
    have h0 : s.destination_groups.filter
        (fun d => d.user_id == uid && d.dest_group_id == gid) = [] := by
      rw [List.filter_eq_nil_iff]
      intro a ha
      exact (List.any_eq_false.mp h) a ha
    simp [h0]

/-- Witness for C5: the empty store holds no `(1, 200)` destination pair. -/
theorem add_destination_twice_witness :
    ∃ s1, add_destination_group ⟨[], []⟩ 1 200 "d" = .ok s1 ∧
      add_destination_group s1 1 200 "d" = .error .Duplicate ∧
      (s1.destination_groups.filter
        (fun d => d.user_id == 1 && d.dest_group_id == 200)).length = 1 :=
  add_destination_twice ⟨[], []⟩ 1 200 "d" "d" (by decide)

/-! ## C1: cross-tenant base uniqueness -/

lemma storedBase_after_setBase (l : List UserRow) (ds : List DestRow)
    (u gid : Int) (gname : String)
    (h : l.any (fun r => r.user_id == u) = true) :
    storedBase ⟨l.map (setBaseRow u gid gname), ds⟩ u = some gid := by
  induction l with
  | nil => simp at h
  | cons a l ih =>
    by_cases ha : a.user_id == u
    · have ha' : a.user_id = u := by simpa using ha
      simp [storedBase, setBaseRow, List.find?_cons, ha']
    · have h' : l.any (fun r => r.user_id == u) = true := by
        simp only [List.any_cons, ha, Bool.false_or] at h; exact h
      have hrec := ih h'
      unfold storedBase setBaseRow at hrec ⊢
      simp only [List.map_cons, List.find?_cons, ha, if_neg] at hrec ⊢
      simpa [ha] using hrec

/-- C1: if user `u1` successfully sets chat `C` as base (producing store
`s1`), then any other user `u2`'s attempt on `s1` to claim `C` fails with
`Conflict` — producing no new store, since the rolled-back transaction
leaves `s1` (including `u2`'s rows) untouched — and `u1`'s stored base in
`s1` is `C`. -/
theorem set_base_group_conflict (s s1 : Store) (u1 u2 C : Int)
    (n1 n2 : String) (hne : u1 ≠ u2)
    (h : set_base_group s u1 C n1 = .ok s1) :
    set_base_group s1 u2 C n2 = .error .Conflict ∧
      storedBase s1 u1 = some C := by
  unfold set_base_group at h
  by_cases hc : conflictingBase s u1 C
  · rw [if_pos hc] at h
    exact absurd h (by simp)
  · rw [if_neg hc] at h
    simp only [Except.ok.injEq] at h
    subst h
    constructor
    · have hmem := ensureUser_any s u1
      rcases List.any_eq_true.mp hmem with ⟨r, hr, hp⟩
      have hru : r.user_id = u1 := by simpa using hp
      have hconf : conflictingBase
          { ensureUser s u1 with users_config :=
              (ensureUser s u1).users_config.map (setBaseRow u1 C n1) }
          u2 C = true := by
        apply List.any_eq_true.mpr
        refine ⟨setBaseRow u1 C n1 r, List.mem_map_of_mem _ hr, ?_⟩
        simp [setBaseRow, hru, hne]
      unfold set_base_group
      rw [hconf]
      simp
    · exact storedBase_after_setBase (ensureUser s u1).users_config
        (ensureUser s u1).destination_groups u1 C n1 (ensureUser_any s u1)

/-- Witness for C1: user 1 claims chat 100 in the empty store; user 2's
subsequent claim of chat 100 is rejected with `Conflict`. -/
theorem set_base_group_conflict_witness :
    set_base_group ⟨[⟨1, some 100, some "a", some "idle"⟩], []⟩ 2 100 "b" =
        .error .Conflict ∧
      storedBase ⟨[⟨1, some 100, some "a", some "idle"⟩], []⟩ 1 = some 100 :=
  set_base_group_conflict ⟨[], []⟩
    ⟨[⟨1, some 100, some "a", some "idle"⟩], []⟩ 1 2 100 "a" "b"
    (by decide) rfl

/-! ## C6: the conflict checker characterised -/

/-- C6: `check_destination_conflict s b d` is true exactly when some user
row stores `b` as its base group and a destination row of that same user
targets `d`. -/
theorem check_destination_conflict_iff (s : Store) (b d : Int) :
    check_destination_conflict s b d = true ↔
      ∃ r ∈ s.users_config, r.base_group_id = some b ∧
        ∃ dr ∈ s.destination_groups, dr.user_id = r.user_id ∧
          dr.dest_group_id = d := by
  unfold check_destination_conflict
  by_cases he : ((s.users_config.filter
      (fun r => r.base_group_id == some b)).map (fun r => r.user_id)).isEmpty
  · rw [if_pos he]
    simp only [Bool.false_eq_true, false_iff]
    rintro ⟨r, hr, hrb, dr, hdr, hu, hd⟩
    have hmem : r.user_id ∈ (s.users_config.filter
        (fun r => r.base_group_id == some b)).map (fun r => r.user_id) :=
      List.mem_map_of_mem _ (List.mem_filter.mpr ⟨hr, by simp [hrb]⟩)
    rw [List.isEmpty_iff] at he
    rw [he] at hmem
    simp at hmem
  · rw [if_neg he]
    constructor
    · intro hany
      rcases List.any_eq_true.mp hany with ⟨dr, hdr, hp⟩
      rw [Bool.and_eq_true] at hp
      obtain ⟨hp1, hp2⟩ := hp
      have hmem : dr.user_id ∈ (s.users_config.filter
          (fun r => r.base_group_id == some b)).map (fun r => r.user_id) :=
        List.elem_iff.mp hp1
      rcases List.mem_map.mp hmem with ⟨r, hrf, hrid⟩
      rcases List.mem_filter.mp hrf with ⟨hr, hrb⟩
      exact ⟨r, hr, by simpa using hrb, dr, hdr, hrid.symm,
        by simpa using hp2⟩
    · rintro ⟨r, hr, hrb, dr, hdr, hu, hd⟩
      apply List.any_eq_true.mpr
      refine ⟨dr, hdr, ?_⟩
      rw [Bool.and_eq_true]
      refine ⟨List.elem_iff.mpr ?_, by simp [hd]⟩
      rw [hu]
      exact List.mem_map_of_mem _ (List.mem_filter.mpr ⟨hr, by simp [hrb]⟩)

/-! ## C10: the routing view never holds an empty destination list -/

lemma addUnique_ne_nil (l : List Int) (x : Int) : addUnique l x ≠ [] := by
  unfold addUnique
  by_cases h : l.contains x
  · rw [if_pos h]
    rintro rfl
    simp [List.contains] at h
  · rw [if_neg h]
    simp

lemma foldl_addUnique_ne_nil (ds : List Int) (l : List Int)
    (h : l ≠ [] ∨ ds ≠ []) : ds.foldl addUnique l ≠ [] := by
  induction ds generalizing l with
  | nil =>
    simp only [List.foldl_nil]
    exact h.resolve_right (by simp)
  | cons x ds ih =>
    simp only [List.foldl_cons]
    exact ih (addUnique l x) (Or.inl (addUnique_ne_nil l x))

lemma routeStep_nonempty (s : Store) (configs : List (Int × List Int))
    (r : UserRow) (h : ∀ p ∈ configs, p.2 ≠ []) :
    ∀ p ∈ routeStep s configs r, p.2 ≠ [] := by
  unfold routeStep
  cases hb : r.base_group_id with
  | none => exact h
  | some b =>
    dsimp only
    by_cases hd : ((s.destination_groups.filter
        (fun d => d.user_id == r.user_id)).map (fun d => d.dest_group_id)).isEmpty
    · rw [if_pos hd]; exact h
    · rw [if_neg hd]
      have hdne : (s.destination_groups.filter
          (fun d => d.user_id == r.user_id)).map (fun d => d.dest_group_id) ≠
            [] := by
        intro hnil
        rw [hnil] at hd
        simp at hd
      by_cases hc : configs.any (fun p => p.1 == b)
      · rw [if_pos hc]
        intro p hp
        rcases List.mem_map.mp hp with ⟨q, hq, hpq⟩
        by_cases hqb : q.1 == b
        · rw [if_pos hqb] at hpq
          rw [← hpq]
          exact foldl_addUnique_ne_nil _ _ (Or.inr hdne)
        · rw [if_neg hqb] at hpq
          rw [← hpq]
          exact h q hq
      · rw [if_neg hc]
        intro p hp
        rcases List.mem_append.mp hp with hp1 | hp2
        · exact h p hp1
        · have : p = (b, ((s.destination_groups.filter
              (fun d => d.user_id == r.user_id)).map
                (fun d => d.dest_group_id)).foldl addUnique
              (match ((configs.find? (fun p => p.1 == b))) with
               | none => []
               | some p => p.2)) := by simpa using hp2
          rw [this]
          exact foldl_addUnique_ne_nil _ _ (Or.inr hdne)

lemma foldl_routeStep_nonempty (s : Store) (rows : List UserRow)
    (acc : List (Int × List Int)) (h : ∀ p ∈ acc, p.2 ≠ []) :
    ∀ p ∈ rows.foldl (routeStep s) acc, p.2 ≠ [] := by
  induction rows generalizing acc with
  | nil => exact h
  | cons r rows ih =>
    simp only [List.foldl_cons]
    exact ih _ (routeStep_nonempty s acc r h)

/-- C10: every entry of the aggregated routing view returned by
`get_all_forwarding_configs` carries a nonempty destination list: a user
with a base but no destination rows is omitted from the view entirely. -/
theorem get_all_forwarding_configs_nonempty (s : Store) :
    ∀ p ∈ get_all_forwarding_configs s, p.2 ≠ [] := by
  unfold get_all_forwarding_configs
  exact foldl_routeStep_nonempty s s.users_config [] (by simp)

/-- Witness for C10: a store with one user (base 100, destination 200)
yields the view `[(100, [200])]`, whose single entry is nonempty. -/
theorem get_all_forwarding_configs_nonempty_witness :
    (100, [(200 : Int)]) ∈ get_all_forwarding_configs
        ⟨[⟨1, some 100, some "b", some "idle"⟩], [⟨1, 200, "d"⟩]⟩ ∧
      ((100 : Int), [(200 : Int)]).2 ≠ [] :=
  ⟨by decide, get_all_forwarding_configs_nonempty
    ⟨[⟨1, some 100, some "b", some "idle"⟩], [⟨1, 200, "d"⟩]⟩
    (100, [200]) (by decide)⟩

/-! ## C3: fan-out attempts every destination and counts independently -/

lemma dispatchStep_auth (auth relayOk : Int → Bool) (s : Store) (origin : Int)
    (hauth : ∀ uid, ownerOfBase s origin = some uid → auth uid = true)
    (acc : FanoutResult) (dest : Int) :
    dispatchStep auth relayOk s origin acc dest =
      ⟨(if relayOk dest then acc.forwarded_count + 1
        else acc.forwarded_count), acc.attempted ++ [dest]⟩ := by
  unfold dispatchStep
  cases ho : ownerOfBase s origin with
  | none => rfl
  | some uid => dsimp only; rw [hauth uid ho]; simp

lemma fanout_foldl (auth relayOk : Int → Bool) (s : Store) (origin : Int)
    (hauth : ∀ uid, ownerOfBase s origin = some uid → auth uid = true)
    (dests : List Int) (acc : FanoutResult) :
    dests.foldl (dispatchStep auth relayOk s origin) acc =
      ⟨acc.forwarded_count + (dests.filter (fun d => relayOk d)).length,
       acc.attempted ++ dests⟩ := by
  induction dests generalizing acc with
  | nil => simp
  | cons d dests ih =>
    rw [List.foldl_cons, dispatchStep_auth auth relayOk s origin hauth,
      ih]
    by_cases hrel : relayOk d <;>
      (simp [List.filter_cons, hrel]; try omega)

lemma filter_not_length (p : Int → Bool) (l : List Int) :
    (l.filter p).length + (l.filter (fun x => !(p x))).length = l.length := by
  induction l with
  | nil => rfl
  | cons a l ih =>
    by_cases h : p a <;> simp [List.filter_cons, h] <;> omega

/-- C3: when the routing view maps the origin chat to destination list
`dests` and the owner of that base (if resolvable) is authenticated, the
dispatch loop attempts a relay on every destination in order — failures on
some destinations never suppress the attempts on the others — and the
aggregate outcome is exactly `(N, N-K, K)` for `N = dests.length` and `K`
the number of destinations whose relay fails. -/
theorem handle_group_message_counts (auth relayOk : Int → Bool) (s : Store)
    (origin : Int) (dests : List Int)
    (hroute : (get_all_forwarding_configs s).find?
      (fun p => p.1 == origin) = some (origin, dests))
    (hauth : ∀ uid, ownerOfBase s origin = some uid → auth uid = true) :
    (handle_group_message auth relayOk s origin).attempted = dests ∧
      (handle_group_message auth relayOk s origin).forwarded_count =
        dests.length - (dests.filter (fun d => !(relayOk d))).length ∧
      dests.length -
          (handle_group_message auth relayOk s origin).forwarded_count =
        (dests.filter (fun d => !(relayOk d))).length := by
  have hpart := filter_not_length (fun d => relayOk d) dests
  unfold handle_group_message
  rw [hroute]
  by_cases hne : dests.isEmpty
  · rw [List.isEmpty_iff] at hne
    subst hne
    simp
  · simp only [hne, Bool.false_eq_true, if_false]
    rw [fanout_foldl auth relayOk s origin hauth]
    refine ⟨by simp, ?_, ?_⟩ <;> simp <;> omega

/-- Witness for C3: one user, base 100, destinations 200 and 300; the relay
to 200 fails and the relay to 300 succeeds, giving `(2, 1, 1)`. -/
theorem handle_group_message_counts_witness :
    (handle_group_message (fun _ => true) (fun d => d == 300)
        ⟨[⟨1, some 100, some "b", some "idle"⟩],
         [⟨1, 200, "d"⟩, ⟨1, 300, "e"⟩]⟩ 100).attempted = [200, 300] ∧
      (handle_group_message (fun _ => true) (fun d => d == 300)
        ⟨[⟨1, some 100, some "b", some "idle"⟩],
         [⟨1, 200, "d"⟩, ⟨1, 300, "e"⟩]⟩ 100).forwarded_count =
        [(200 : Int), 300].length -
          ([(200 : Int), 300].filter (fun d => !(d == 300))).length ∧
      [(200 : Int), 300].length -
          (handle_group_message (fun _ => true) (fun d => d == 300)
            ⟨[⟨1, some 100, some "b", some "idle"⟩],
             [⟨1, 200, "d"⟩, ⟨1, 300, "e"⟩]⟩ 100).forwarded_count =
        ([(200 : Int), 300].filter (fun d => !(d == 300))).length :=
  handle_group_message_counts (fun _ => true) (fun d => d == 300)
    ⟨[⟨1, some 100, some "b", some "idle"⟩],
     [⟨1, 200, "d"⟩, ⟨1, 300, "e"⟩]⟩ 100 [200, 300]
    (by decide) (fun uid _ => rfl)

/-! ## C2: the dest ≠ own-base invariant under the store operations -/

lemma ensureUser_users (s : Store) (u : Int) :
    ∀ r ∈ (ensureUser s u).users_config,
      r ∈ s.users_config ∨ r = ⟨u, none, none, none⟩ := by
  unfold ensureUser
  by_cases h : s.users_config.any (fun r => r.user_id == u)
  · simp only [if_pos h]
    intro r hr
    exact Or.inl hr
  · simp only [h, Bool.false_eq_true, if_false]
    intro r hr
    simpa using List.mem_append.mp hr

lemma set_user_state_users (s : Store) (u : Int) (st : Option String) :
    ∀ r1 ∈ (set_user_state s u st).users_config,
      (∃ r ∈ s.users_config, r1.user_id = r.user_id ∧
        r1.base_group_id = r.base_group_id) ∨
      (r1.user_id = u ∧ r1.base_group_id = none) := by
  unfold set_user_state
  by_cases h : s.users_config.any (fun r => r.user_id == u)
  · simp only [if_pos h]
    intro r1 hr1
    rcases List.mem_map.mp hr1 with ⟨r, hr, hr1eq⟩
    left
    refine ⟨r, hr, ?_, ?_⟩ <;> rw [← hr1eq] <;> unfold setStateRow <;>
      by_cases hc : r.user_id == u <;> simp [hc]
  · simp only [if_neg h]
    intro r1 hr1
    rcases List.mem_map.mp hr1 with ⟨r, hr, hr1eq⟩
    rcases List.mem_append.mp hr with hrs | hnew
    · left
      refine ⟨r, hrs, ?_, ?_⟩ <;> rw [← hr1eq] <;> unfold setStateRow <;>
        by_cases hc : r.user_id == u <;> simp [hc]
    · right
      have hr' : r = ⟨u, none, none, st⟩ := by simpa using hnew
      subst hr'
      rw [← hr1eq]
      unfold setStateRow
      simp

/-- Concrete store: user 1 with base 100 and destination 200 — it satisfies
the dest ≠ own-base invariant. -/
def c2mid : Store :=
  ⟨[⟨1, some 100, some "b", some "idle"⟩], [⟨1, 200, "d"⟩]⟩

/-- Concrete store obtained from `c2mid` by `set_base_group 1 200`: user 1's
base now equals their own destination 200. -/
def c2fin : Store :=
  ⟨[⟨1, some 200, some "b2", some "idle"⟩], [⟨1, 200, "d"⟩]⟩

/-- Counterexample to C2 as stated: starting from the empty store (which
satisfies the invariant), the store-operation sequence
`set_base_group 1 100` ; `add_destination_group 1 200` ;
`set_base_group 1 200` succeeds at every step — `set_base_group` checks only
the cross-user UNIQUE constraint, never the caller's own destinations — and
ends in a store where user 1's base equals their own destination 200,
violating the invariant. -/
theorem store_ops_break_destBaseInv :
    destBaseInv (⟨[], []⟩ : Store) ∧
      set_base_group ⟨[], []⟩ 1 100 "b" =
        .ok ⟨[⟨1, some 100, some "b", some "idle"⟩], []⟩ ∧
      add_destination_group ⟨[⟨1, some 100, some "b", some "idle"⟩], []⟩
        1 200 "d" = .ok c2mid ∧
      set_base_group c2mid 1 200 "b2" = .ok c2fin ∧
      ¬ destBaseInv c2fin :=
  ⟨by decide, rfl, rfl, rfl, by decide⟩

/-- C2 amended: the invariant is **not** preserved by arbitrary store calls;
it is preserved by `clear_base_group` and `remove_destination_group`
unconditionally, by `add_destination_group` when the handler-level
self-reference guard holds (the new destination differs from every base the
user stores — src/handlers.py lines 617-624), and by `set_base_group` only
under the analogous guard (the new base is not among the user's stored
destinations), a guard no code path of the repository enforces. -/
theorem destBaseInv_preservation (s : Store) (h : destBaseInv s) :
    (∀ u, destBaseInv (clear_base_group s u)) ∧
      (∀ u g, destBaseInv (remove_destination_group s u g).1) ∧
      (∀ u g n s1, (∀ r ∈ s.users_config, r.user_id = u →
          r.base_group_id ≠ some g) →
        add_destination_group s u g n = .ok s1 → destBaseInv s1) ∧
      (∀ u g n s1, (∀ d ∈ s.destination_groups, d.user_id = u →
          d.dest_group_id ≠ g) →
        set_base_group s u g n = .ok s1 → destBaseInv s1) := by
  refine ⟨?_, ?_, ?_, ?_⟩
  · intro u r1 hr1 d hd hud
    rcases List.mem_map.mp hr1 with ⟨r, hr, hr1eq⟩
    subst hr1eq
    unfold clearBaseRow
    by_cases hc : r.user_id == u
    · simp [hc]
    · simp only [hc, Bool.false_eq_true, if_false]
      simp only [clearBaseRow, hc, Bool.false_eq_true, if_false] at hud
      exact h r hr d hd hud
  · intro u g r1 hr1 d hd hud
    exact h r1 hr1 d (List.mem_filter.mp hd).1 hud
  · intro u g n s1 hg hok
    unfold add_destination_group at hok
    by_cases hdup : s.destination_groups.any
        (fun d => d.user_id == u && d.dest_group_id == g)
    · rw [if_pos hdup] at hok
      exact absurd hok (by simp)
    · rw [if_neg hdup] at hok
      simp only [Except.ok.injEq] at hok
      subst hok
      intro r1 hr1 d hd hud
      have hdests : (set_user_state
          { ensureUser s u with destination_groups :=
              (ensureUser s u).destination_groups ++ [⟨u, g, n⟩] }
          u (some "idle")).destination_groups =
            s.destination_groups ++ [⟨u, g, n⟩] := by
        rw [set_user_state_dests]
        simp [ensureUser_dests]
      rw [hdests] at hd
      rcases set_user_state_users _ u (some "idle") r1 hr1 with
        ⟨r, hr, huid, hbase⟩ | ⟨_, hbase⟩
      · rcases ensureUser_users s u r hr with hrs | hfresh
        · rcases List.mem_append.mp hd with hds | hdnew
          · rw [hbase]
            exact h r hrs d hds (hud.trans huid)
          · have hdval : d = ⟨u, g, n⟩ := by simpa using hdnew
            subst hdval
            rw [hbase]
            have hru : r.user_id = u := by
              rw [← huid]
              exact hud.symm
            simpa using hg r hrs hru
        · subst hfresh
          rw [hbase]
          simp
      · rw [hbase]
        simp
  · intro u g n s1 hg hok
    unfold set_base_group at hok
    by_cases hcb : conflictingBase s u g
    · rw [if_pos hcb] at hok
      exact absurd hok (by simp)
    · rw [if_neg hcb] at hok
      simp only [Except.ok.injEq] at hok
      subst hok
      intro r1 hr1 d hd hud
      rw [show ({ ensureUser s u with users_config :=
          (ensureUser s u).users_config.map (setBaseRow u g n)} :
            Store).destination_groups = s.destination_groups from by
        simp [ensureUser_dests]] at hd
      rcases List.mem_map.mp hr1 with ⟨r0, hr0, hr1eq⟩
      subst hr1eq
      unfold setBaseRow at hud ⊢
      by_cases hc : r0.user_id == u
      · have hru : r0.user_id = u := by simpa using hc
        simp only [hc, if_true] at hud ⊢
        intro hcontra
        have hgd : g = d.dest_group_id := by simpa using hcontra
        have hdu : d.user_id = u := by simpa [hru] using hud
        exact hg d hd hdu hgd.symm
      · simp only [hc, Bool.false_eq_true, if_false] at hud ⊢
        rcases ensureUser_users s u r0 hr0 with hrs | hfresh
        · exact h r0 hrs d hd hud
        · subst hfresh
          simp

/-- Concrete result of the guarded `add_destination_group c2mid 1 300`. -/
def c2addRes : Store :=
  ⟨[⟨1, some 100, some "b", some "idle"⟩], [⟨1, 200, "d"⟩, ⟨1, 300, "n"⟩]⟩

/-- Concrete result of the guarded `set_base_group c2mid 1 400`. -/
def c2setRes : Store :=
  ⟨[⟨1, some 400, some "n2", some "idle"⟩], [⟨1, 200, "d"⟩]⟩

/-- Witness for the amended C2 at the concrete store `c2mid`: each of the
four guarded operations lands in a store still satisfying the invariant. -/
theorem destBaseInv_preservation_witness :
    destBaseInv (clear_base_group c2mid 1) ∧
      destBaseInv (remove_destination_group c2mid 1 200).1 ∧
      destBaseInv c2addRes ∧ destBaseInv c2setRes :=
  ⟨(destBaseInv_preservation c2mid (by decide)).1 1,
   (destBaseInv_preservation c2mid (by decide)).2.1 1 200,
   (destBaseInv_preservation c2mid (by decide)).2.2.1 1 300 "n" c2addRes
     (by decide) rfl,
   (destBaseInv_preservation c2mid (by decide)).2.2.2 1 400 "n2" c2setRes
     (by decide) rfl⟩

/-! ## C4: return-to-idle after a chat-identified event -/

/-- Concrete store: user 1, base 100, workflow state awaiting a destination
(the state the `add_dest` fallback leaves behind). -/
def c4s : Store :=
  ⟨[⟨1, some 100, some "b", some "awaiting_dest_forward"⟩], []⟩

/-- Counterexample to C4 as stated: user 1 is in the awaiting-destination
state and a concrete chat is resolved through the button-selection handler
(`sel_dest_select_100`).  The candidate equals the user's own base, a
validation failure — but the handler returns with `# Keep state, let user
choose again`, leaving the workflow state at `awaiting_dest_forward`, not
`idle`. -/
theorem button_select_dest_keeps_state :
    get_user_state c4s 1 = some "awaiting_dest_forward" ∧
      button_select_dest c4s 1 100 "x" = c4s ∧
      get_user_state (button_select_dest c4s 1 100 "x") 1 ≠ some "idle" :=
  ⟨rfl, rfl, by decide⟩

/-- C4 amended: after a chat-identified event for a user in
`awaiting_base_forward` or `awaiting_dest_forward`, the forwarded-message
handler always leaves the workflow state `idle` (success and every
validation failure alike), and so does the base-selection button handler;
the destination-selection button handler leaves `idle` on success and on the
store-level `Duplicate` failure, but deliberately keeps the prior state on a
self-reference or cross-tenant edge conflict, so for it the return-to-idle
guarantee holds only when neither of those two validations fails. -/
theorem chat_event_returns_idle (s : Store) (uid gid : Int) (gname : String)
    (h : get_user_state s uid = some "awaiting_base_forward" ∨
      get_user_state s uid = some "awaiting_dest_forward") :
    get_user_state (handle_forwarded_message_identified s uid gid gname)
        uid = some "idle" ∧
      get_user_state (button_select_base s uid gid gname) uid =
        some "idle" ∧
      (∀ b nm, get_base_group s uid = some (b, nm) → gid ≠ b →
        check_destination_conflict s b gid = false →
        get_user_state (button_select_dest s uid gid gname) uid =
          some "idle") := by
  refine ⟨?_, ?_, ?_⟩
  · unfold handle_forwarded_message_identified
    rcases h with h | h
    · rw [h]
      cases hsb : set_base_group s uid gid gname <;>
        simp [hsb, get_set_state]
    · rw [h]
      cases hgb : get_base_group s uid with
      | none => simp [hgb, get_set_state]
      | some p =>
        obtain ⟨b, nm⟩ := p
        by_cases hgid : gid == b
        · simp [hgb, hgid, get_set_state]
        · by_cases hcd : check_destination_conflict s b gid
          · simp [hgb, hgid, hcd, get_set_state]
          · cases had : add_destination_group s uid gid gname <;>
              simp [hgb, hgid, hcd, had, get_set_state]
  · unfold button_select_base
    cases hsb : set_base_group s uid gid gname <;>
      simp [get_set_state]
  · intro b nm hgb hne hcd
    unfold button_select_dest
    rw [hgb]
    have hgid : (gid == b) = false := by simp [hne]
    cases had : add_destination_group s uid gid gname <;>
      simp [hgid, hcd, had, get_set_state]

/-- Witness for the amended C4 at concrete inputs: user 1 awaiting a
destination with base 100; the resolved chat 300 is neither the base nor a
conflicting edge, and all three handler paths land in `idle`. -/
theorem chat_event_returns_idle_witness :
    get_user_state (handle_forwarded_message_identified c4s 1 300 "g") 1 =
        some "idle" ∧
      get_user_state (button_select_base c4s 1 300 "g") 1 = some "idle" ∧
      (∀ b nm, get_base_group c4s 1 = some (b, nm) → (300 : Int) ≠ b →
        check_destination_conflict c4s b 300 = false →
        get_user_state (button_select_dest c4s 1 300 "g") 1 =
          some "idle") :=
  chat_event_returns_idle c4s 1 300 "g" (Or.inr rfl)

/-- Witness for C9 at a concrete store whose single row stores base id 0. -/
theorem get_base_group_zero_witness :
    get_base_group ⟨[⟨3, some 0, some "z", some "idle"⟩], []⟩ 3 = none :=
  get_base_group_zero ⟨[⟨3, some 0, some "z", some "idle"⟩], []⟩ 3 (by decide)

end ForwardBot
